import Mathlib

/-!
# Verification of the zygisk-gadget core (module/src/main/cpp/main.cpp)

A shallow embedding of the handshake, staging and deferred-load logic of
`main.cpp`.  Byte streams are `List Nat` (one `Nat` per byte), C++ strings
are `List Char`, and the side-effecting companion / hook / loader routines
are embedded as pure functions from an explicit environment to the
chronological list of their externally visible actions (channel writes,
file copies, ownership changes, log lines, unlinks).
-/

/-! ## Channel string framing (`writeString` / `readString`, main.cpp:49-70) -/

/-- The four little-endian bytes of a `uint32` value, as written by
`write_full(fd, &length, sizeof(length))`. -/
def u32le (n : Nat) : List Nat :=
  [n % 256, n / 256 % 256, n / 65536 % 256, n / 16777216 % 256]

/-- Decode four little-endian bytes into the `uint32` they denote. -/
def decodeU32 (l : List Nat) : Nat :=
  match l with
  | [a, b, c, d] => a + 256 * b + 65536 * c + 16777216 * d
  | _ => 0

/-- Mirrors `writeString` (main.cpp:49-55): a `uint32` length prefix equal to
`str.size() + 1` (the trailing NUL is included), followed by that many bytes
of the string plus its NUL terminator. -/
def writeString (s : List Nat) : List Nat :=
  u32le (s.length + 1) ++ s ++ [0]

/-- Mirrors `readString` (main.cpp:57-70) acting on a byte stream.  Returns
the decoded string together with the bytes left unconsumed on the stream.
The declared length is rejected when it is `0` or exceeds `16 * 1024`; the
final buffer byte is forced to NUL (`buffer.back() = 0`) and the result is
the C string read from the buffer (bytes up to the first NUL).  A short
stream (failed `read_full`) consumes everything and yields the empty
string. -/
def readString (stream : List Nat) : List Nat × List Nat :=
  if 4 ≤ stream.length then
    let length := decodeU32 (stream.take 4)
    let rest := stream.drop 4
    if length = 0 ∨ 16 * 1024 < length then
      ([], rest)
    else if length ≤ rest.length then
      (((rest.take length).set (length - 1) 0).takeWhile (fun b => b != 0),
        rest.drop length)
    else ([], [])
  else ([], [])

theorem decodeU32_u32le (n : Nat) (hn : n < 4294967296) :
    decodeU32 (u32le n) = n := by
  simp [u32le, decodeU32]
  omega

theorem u32le_length (n : Nat) : (u32le n).length = 4 := by
  simp [u32le]

/-- **C5**: the string decoder accepts a received `uint32` length prefix iff
it lies in `1 .. 16384`; a declared length of `0` or above 16 KiB yields the
empty string with no payload byte consumed, while an in-range length (with
enough payload available) consumes exactly that many payload bytes. -/
theorem c5_length_cap (n : Nat) (rest : List Nat) (hn : n < 4294967296) :
    ((n = 0 ∨ 16 * 1024 < n) → readString (u32le n ++ rest) = ([], rest)) ∧
    (1 ≤ n → n ≤ 16 * 1024 → n ≤ rest.length →
      (readString (u32le n ++ rest)).2 = rest.drop n) := by
  have htake : (u32le n ++ rest).take 4 = u32le n :=
    List.take_left' (u32le_length n)
  have hdrop : (u32le n ++ rest).drop 4 = rest :=
    List.drop_left' (u32le_length n)
  have h4 : 4 ≤ (u32le n ++ rest).length := by
    simp [List.length_append, u32le_length]
  constructor
  · intro h
    simp only [readString, htake, hdrop, decodeU32_u32le n hn, if_pos h4, if_pos h]
  · intro h1 h2 h3
    have hno : ¬ (n = 0 ∨ 16 * 1024 < n) := by omega
    simp only [readString, htake, hdrop, decodeU32_u32le n hn, if_pos h4, if_neg hno,
      if_pos h3]

/-- Witness for C5 at the concrete rejected length `0` and accepted length `2`. -/
theorem c5_length_cap_witness :
    readString (u32le 0 ++ [7, 7]) = ([], [7, 7]) ∧
    (readString (u32le 2 ++ [65, 0, 9])).2 = [9] :=
  ⟨(c5_length_cap 0 [7, 7] (by decide)).1 (by decide),
   (c5_length_cap 2 [65, 0, 9] (by decide)).2 (by decide) (by decide) (by decide)⟩

theorem takeWhile_append_of_all {p : Nat → Bool} {s t : List Nat}
    (hs : ∀ a ∈ s, p a = true) (ht : ∀ e, t.head? = some e → p e = false) :
    (s ++ t).takeWhile p = s := by
  induction s with
  | nil =>
      cases t with
      | nil => rfl
      | cons e t' =>
          simp only [List.nil_append, List.takeWhile]
          rw [ht e rfl]
  | cons a s' ih =>
      simp only [List.cons_append, List.takeWhile]
      rw [hs a (by simp)]
      simp only [List.cons.injEq, true_and]
      exact ih (fun b hb => hs b (by simp [hb]))

theorem set_last_append (s : List Nat) (x y : Nat) :
    (s ++ [x]).set s.length y = s ++ [y] := by
  induction s with
  | nil => rfl
  | cons a s' ih => simp [List.set, ih]

/-- **C9**: string framing round-trip — for a string with no interior NUL and
`size + 1 ≤ 16384`, decoding a stream that starts with its encoding yields
exactly the string and leaves the trailing stream untouched. -/
theorem c9_roundtrip (s rest : List Nat) (h0 : 0 ∉ s)
    (hlen : s.length + 1 ≤ 16 * 1024) :
    readString (writeString s ++ rest) = (s, rest) := by
  have hassoc : writeString s ++ rest = u32le (s.length + 1) ++ ((s ++ [0]) ++ rest) := by
    simp [writeString, List.append_assoc]
  have hn : s.length + 1 < 4294967296 := by omega
  have htake : (u32le (s.length + 1) ++ ((s ++ [0]) ++ rest)).take 4 = u32le (s.length + 1) :=
    List.take_left' (u32le_length _)
  have hdrop : (u32le (s.length + 1) ++ ((s ++ [0]) ++ rest)).drop 4 = (s ++ [0]) ++ rest :=
    List.drop_left' (u32le_length _)
  have hs0len : (s ++ [0]).length = s.length + 1 := by simp
  have htake2 : ((s ++ [0]) ++ rest).take (s.length + 1) = s ++ [0] :=
    List.take_left' hs0len
  have hdrop2 : ((s ++ [0]) ++ rest).drop (s.length + 1) = rest :=
    List.drop_left' hs0len
  have h4 : 4 ≤ (u32le (s.length + 1) ++ ((s ++ [0]) ++ rest)).length := by
    simp [List.length_append, u32le_length]
  have hno : ¬ (s.length + 1 = 0 ∨ 16 * 1024 < s.length + 1) := by omega
  have hle : s.length + 1 ≤ ((s ++ [0]) ++ rest).length := by
    simp [List.length_append]
  rw [hassoc]
  simp only [readString, htake, hdrop, decodeU32_u32le _ hn, if_pos h4, if_neg hno,
    if_pos hle, htake2, hdrop2, Nat.add_sub_cancel]
  rw [set_last_append s 0 0]
  rw [takeWhile_append_of_all (t := [0]) (fun a ha => by
        simp only [bne_iff_ne, ne_eq, decide_eq_true_eq]
        intro hc; exact h0 (hc ▸ ha))
      (fun e he => by simp at he; simp [he])]

/-- Witness for C9 on the concrete string `[104, 105]` ("hi"). -/
theorem c9_roundtrip_witness :
    readString (writeString [104, 105] ++ [7]) = ([104, 105], [7]) :=
  c9_roundtrip [104, 105] [7] (by decide) (by decide)

/-! ## Filenames and directory helpers (`main.cpp:86-102, 340, 358`) -/

/-- A C++ `std::string` holding a path or filename, as a list of characters. -/
abbrev Str := List Char

/-- Mirrors `normalize_dir` (main.cpp:99-102): strip trailing `/` characters. -/
def normalize_dir (p : Str) : Str :=
  (p.reverse.dropWhile (fun c => c == '/')).reverse

/-- The characters strictly after the last occurrence of `c`, or `none` when
`c` does not occur — the tail picked out by `find_last_of(c)`. -/
def afterLastOcc (c : Char) : Str → Option Str
  | [] => none
  | a :: rest =>
    match afterLastOcc c rest with
    | some e => some e
    | none => if a = c then some rest else none

/-- Mirrors `substr(0, find_last_of(c))`: everything before the last
occurrence of `c`, or the whole string when `c` does not occur (`npos`). -/
def upToLastOcc (c : Char) : Str → Str
  | [] => []
  | a :: rest =>
    match afterLastOcc c rest with
    | some _ => a :: upToLastOcc c rest
    | none => if a = c then [] else a :: rest

theorem afterLastOcc_of_not_mem {c : Char} {l : Str} (h : c ∉ l) :
    afterLastOcc c l = none := by
  induction l with
  | nil => rfl
  | cons a rest ih =>
      have hne : a ≠ c := fun hc => h (by simp [hc])
      have : afterLastOcc c rest = none := ih (fun hc => h (by simp [hc]))
      simp [afterLastOcc, this, hne]

theorem afterLastOcc_append {c : Char} (x : Str) {e : Str} (he : c ∉ e) :
    afterLastOcc c (x ++ c :: e) = some e := by
  induction x with
  | nil => simp [afterLastOcc, afterLastOcc_of_not_mem he]
  | cons a x' ih => simp [afterLastOcc, ih]

theorem upToLastOcc_append {c : Char} (x : Str) {e : Str} (he : c ∉ e) :
    upToLastOcc c (x ++ c :: e) = x := by
  induction x with
  | nil => simp [upToLastOcc, afterLastOcc_of_not_mem he]
  | cons a x' ih => simp [upToLastOcc, afterLastOcc_append x' he, ih]

/-- Does `l` start with `p`? (executable, used to embed `std::regex_search`). -/
def startsWithL : Str → Str → Bool
  | [], _ => true
  | _ :: _, [] => false
  | a :: as, b :: bs => a == b && startsWithL as bs

/-- Does `needle` occur as a contiguous run inside the haystack? -/
def hasSub (needle : Str) : Str → Bool
  | [] => needle.isEmpty
  | b :: bs => startsWithL needle (b :: bs) || hasSub needle bs

/-- Does `l` end with `suf`? -/
def endsWithL (suf l : Str) : Bool :=
  startsWithL suf.reverse l.reverse

theorem startsWithL_ex {p l : Str} (h : startsWithL p l = true) :
    ∃ t, l = p ++ t := by
  induction p generalizing l with
  | nil => exact ⟨l, rfl⟩
  | cons a as ih =>
      cases l with
      | nil => simp [startsWithL] at h
      | cons b bs =>
          simp only [startsWithL, Bool.and_eq_true, beq_iff_eq] at h
          obtain ⟨t, ht⟩ := ih h.2
          exact ⟨t, by simp [h.1, ht]⟩

theorem endsWithL_ex {s l : Str} (h : endsWithL s l = true) :
    ∃ p, l = p ++ s := by
  obtain ⟨t, ht⟩ := startsWithL_ex h
  refine ⟨t.reverse, ?_⟩
  have := congrArg List.reverse ht
  simpa using this

/-- The literal `-gadget` marker the patterns look for. -/
def gadgetMarker : Str := "-gadget".toList

/-- Mirrors `std::regex_search(name, ".*-gadget.*<arch>\.so$")`
(main.cpp:331-339): the name ends with `<arch>.so` and contains `-gadget`
somewhere before that suffix. -/
def gadgetPattern (arch : Str) (name : Str) : Bool :=
  endsWithL (arch ++ ".so".toList) name &&
    hasSub gadgetMarker (name.take (name.length - (arch ++ ".so".toList).length))

/-- Mirrors `std::regex_search(name, ".*-gadget\.config$")` (main.cpp:351). -/
def configFilePattern (name : Str) : Bool :=
  endsWithL "-gadget.config".toList name

/-- Mirrors `std::regex_search(name, ".*-gadget.*\.config\.so$")`
(main.cpp:148), the side-car pattern used at cleanup time. -/
def cleanupPattern (name : Str) : Bool :=
  endsWithL ".config.so".toList name &&
    hasSub gadgetMarker (name.take (name.length - (".config.so".toList).length))

/-- Mirrors `find_matching_file` (main.cpp:87-97): first directory entry
matching the pattern, or the empty string when none matches. -/
def find_matching_file (listing : List Str) (pat : Str → Bool) : Str :=
  match listing.find? pat with
  | some f => f
  | none => []

/-- Mirrors main.cpp:358: the staged side-car name is the gadget filename up
to its last dot, with the fixed suffix `.config.so` appended. -/
def new_frida_config_name (g : Str) : Str :=
  upToLastOcc '.' g ++ ".config.so".toList

/-- The name the spec's words prescribe for the side-car: the payload
filename with its final extension replaced by `.config.` followed by the
payload's original extension. -/
def specSidecarName (g : Str) : Str :=
  upToLastOcc '.' g ++ ".config.".toList ++ (afterLastOcc '.' g).getD []

/-- **C8**: for every payload filename accepted by the architecture pattern
(hence ending in `.so`), the destination side-car filename computed by the
companion equals the spec's derivation: the filename with its final
extension replaced by `.config.` + that original extension. -/
theorem c8_sidecar_name (arch g : Str) (h : gadgetPattern arch g = true) :
    new_frida_config_name g = specSidecarName g := by
  have hends : endsWithL (arch ++ ".so".toList) g = true := by
    simp only [gadgetPattern, Bool.and_eq_true] at h
    exact h.1
  obtain ⟨p, hp⟩ := endsWithL_ex hends
  have hg : g = (p ++ arch) ++ '.' :: ['s', 'o'] := by
    rw [hp]; simp [List.append_assoc]
  have hno : '.' ∉ (['s', 'o'] : Str) := by decide
  have hup : upToLastOcc '.' g = p ++ arch := by rw [hg]; exact upToLastOcc_append _ hno
  have haft : afterLastOcc '.' g = some ['s', 'o'] := by
    rw [hg]; exact afterLastOcc_append _ hno
  rw [new_frida_config_name, specSidecarName, hup, haft]
  simp [List.append_assoc]

/-- Witness for C8 on the arm64 gadget filename shipped with the module. -/
theorem c8_sidecar_name_witness :
    gadgetPattern "arm64".toList "ajeossida-gadget-16.5.2-android-arm64.so".toList = true ∧
    new_frida_config_name "ajeossida-gadget-16.5.2-android-arm64.so".toList =
      specSidecarName "ajeossida-gadget-16.5.2-android-arm64.so".toList :=
  ⟨by decide, c8_sidecar_name "arm64".toList _ (by decide)⟩

/-! ## Companion process (`companion_handler`, main.cpp:242-253 and 303-377) -/

/-- The target-selection record read from the config file
(`j["package"]["name"]`, `j["package"]["delay"]`,
`j["package"]["mode"]["config"]`, main.cpp:310-312). -/
structure ConfigRecord where
  name : Str
  delay : Nat
  configMode : Bool

/-- How the Config Record Source behaves when the companion consumes it.
`missing`: the `ifstream` cannot be opened, so `get_json` (main.cpp:242-253)
logs and returns `nullptr`.  `malformed`: the file opens but `file >> j`
raises a parse exception (the JSON library throws on malformed input and
nothing in the repository catches it).  `missingFields`: parsing succeeds
but one of the three field accesses at main.cpp:310-312 raises a type
exception (absent keys yield `null`, and converting `null` to
string/uint/bool throws).  `ok`: all three fields are extracted. -/
inductive ConfigSource where
  | missing
  | malformed
  | missingFields
  | ok (rec : ConfigRecord)

/-- Externally visible actions of one companion invocation, in program
order: channel writes (`writeString` / raw `write`), log lines, `copy_file`
calls with their result, and `chown_like_dir` calls. -/
inductive CEv where
  | sendTargetName (s : Str)
  | sendDelay (n : Nat)
  | sendGadgetName (s : Str)
  | logFailedOpen
  | logNoAppDir
  | logNoGadget
  | logNoConfig
  | copyConfig (src dst : Str) (ok : Bool)
  | chownConfig (dst dir : Str)
  | copyGadget (src dst : Str) (ok : Bool)
  | chownGadget (dst dir : Str)
  deriving DecidableEq

/-- Whether the companion process returned from the event handler normally
(`normal`, covering both the completed exchange and the early `return`s) or
an uncaught C++ exception escaped `companion_handler` (`thrown`). -/
inductive COutcome where
  | normal
  | thrown
  deriving DecidableEq

/-- The values the companion reads during one event: the config path sent at
S0, the classified config source, and the hook's two channel messages
(decision boolean, app data directory). -/
structure CompanionIn where
  cfgPath : Str
  src : ConfigSource
  enable : Bool
  appDataDir : Str

/-- The filesystem as the companion observes it: the module directory's
entries in iteration order, and the success of each `copy_file` call. -/
structure CompanionFs where
  listing : List Str
  copyOk : Str → Str → Bool

/-- Mirrors the config-mode block (main.cpp:350-365): locate the side-car by
pattern (warning when absent), then unconditionally attempt the copy to the
derived destination name, fixing ownership only when the copy succeeded. -/
def stageConfig (fs : CompanionFs) (moduleDir appDir gname : Str) : List CEv :=
  (if find_matching_file fs.listing configFilePattern = [] then [CEv.logNoConfig] else []) ++
  (CEv.copyConfig (moduleDir ++ '/' :: find_matching_file fs.listing configFilePattern)
      (appDir ++ '/' :: new_frida_config_name gname)
      (fs.copyOk (moduleDir ++ '/' :: find_matching_file fs.listing configFilePattern)
        (appDir ++ '/' :: new_frida_config_name gname)) ::
    (if fs.copyOk (moduleDir ++ '/' :: find_matching_file fs.listing configFilePattern)
        (appDir ++ '/' :: new_frida_config_name gname) then
      [CEv.chownConfig (appDir ++ '/' :: new_frida_config_name gname) appDir]
    else []))

/-- Mirrors the gadget staging block (main.cpp:367-372): copy the located
gadget into the target directory and fix ownership when the copy
succeeded. -/
def stageGadget (fs : CompanionFs) (moduleDir appDir gname : Str) : List CEv :=
  CEv.copyGadget (moduleDir ++ '/' :: gname) (appDir ++ '/' :: gname)
      (fs.copyOk (moduleDir ++ '/' :: gname) (appDir ++ '/' :: gname)) ::
    (if fs.copyOk (moduleDir ++ '/' :: gname) (appDir ++ '/' :: gname) then
      [CEv.chownGadget (appDir ++ '/' :: gname) appDir]
    else [])

/-- The target directory used for staging (main.cpp:323-327): the normalized
directory the hook sent, falling back to `/data/data/<name>` when empty. -/
def companionAppDir (recName appDataDir : Str) : Str :=
  if normalize_dir appDataDir = [] then "/data/data/".toList ++ recName
  else normalize_dir appDataDir

/-- Mirrors `companion_handler` (main.cpp:303-377) for one specialization
event, parameterized by the architecture tag of the compile-time gadget
pattern.  Produces the chronological action list and whether the handler
returned normally or let an exception escape. -/
def companion_handler (arch : Str) (inp : CompanionIn) (fs : CompanionFs) :
    List CEv × COutcome :=
  match inp.src with
  | ConfigSource.missing => ([CEv.logFailedOpen], COutcome.normal)
  | ConfigSource.malformed => ([], COutcome.thrown)
  | ConfigSource.missingFields => ([], COutcome.thrown)
  | ConfigSource.ok rec =>
    if inp.enable = false then ([CEv.sendTargetName rec.name], COutcome.normal)
    else
      let dirEvs := if normalize_dir inp.appDataDir = [] then [CEv.logNoAppDir] else []
      let appDir := companionAppDir rec.name inp.appDataDir
      let moduleDir := upToLastOcc '/' inp.cfgPath
      let gname := find_matching_file fs.listing (gadgetPattern arch)
      if gname = [] then
        (CEv.sendTargetName rec.name :: dirEvs ++ [CEv.sendDelay rec.delay, CEv.logNoGadget],
          COutcome.normal)
      else
        (CEv.sendTargetName rec.name :: dirEvs ++ CEv.sendDelay rec.delay ::
            ((if rec.configMode then stageConfig fs moduleDir appDir gname else []) ++
              stageGadget fs moduleDir appDir gname ++ [CEv.sendGadgetName gname]),
          COutcome.normal)

theorem sendGadgetName_not_mem_stageConfig (fs : CompanionFs) (md ad gn g : Str) :
    CEv.sendGadgetName g ∉ stageConfig fs md ad gn := by
  unfold stageConfig
  split_ifs <;> simp

theorem sendGadgetName_not_mem_stageGadget (fs : CompanionFs) (md ad gn g : Str) :
    CEv.sendGadgetName g ∉ stageGadget fs md ad gn := by
  unfold stageGadget
  split_ifs <;> simp

/-- **C3 (amended)**: when the config file cannot be opened, the companion
logs, sends nothing, writes nothing, and returns normally — fatal to this
event only.  When the file is malformed or a required field is absent, the
companion likewise sends nothing and writes nothing, but it does not return:
an uncaught exception escapes the handler, so the abort is not contained to
the event by this code. -/
theorem c3_amended (arch : Str) (inp : CompanionIn) (fs : CompanionFs) :
    (inp.src = ConfigSource.missing →
      companion_handler arch inp fs = ([CEv.logFailedOpen], COutcome.normal)) ∧
    ((inp.src = ConfigSource.malformed ∨ inp.src = ConfigSource.missingFields) →
      companion_handler arch inp fs = ([], COutcome.thrown)) := by
  constructor
  · intro h
    simp [companion_handler, h]
  · rintro (h | h) <;> simp [companion_handler, h]

/-- Environment with a malformed config record. -/
def c3In : CompanionIn :=
  { cfgPath := "/data/adb/modules/zygisk_gadget/config".toList,
    src := ConfigSource.malformed, enable := true, appDataDir := [] }

def c3Fs : CompanionFs := { listing := [], copyOk := fun _ _ => true }

/-- **C3 counterexample**: on a malformed config record the handler does not
abort by a normal event-local return — the parse exception escapes it, so
the failure is not confined to the event as the claim states. -/
theorem c3_counterexample :
    (companion_handler "arm64".toList c3In c3Fs).2 = COutcome.thrown ∧
    (companion_handler "arm64".toList c3In c3Fs).2 ≠ COutcome.normal := by
  constructor
  · rfl
  · intro h
    exact COutcome.noConfusion (h.symm.trans rfl)

/-- Witness for the amended C3 at a concrete missing-file event. -/
theorem c3_amended_witness :
    companion_handler "arm64".toList
        { cfgPath := [], src := ConfigSource.missing, enable := false, appDataDir := [] }
        { listing := [], copyOk := fun _ _ => true } =
      ([CEv.logFailedOpen], COutcome.normal) :=
  (c3_amended "arm64".toList _ _).1 rfl

/-- Event where the gadget is found but every `copy_file` call fails. -/
def c2In : CompanionIn :=
  { cfgPath := "/data/adb/modules/zygisk_gadget/config".toList,
    src := ConfigSource.ok
      { name := "com.x".toList, delay := 300000, configMode := false },
    enable := true, appDataDir := "/data/user/0/com.x".toList }

def c2Fs : CompanionFs :=
  { listing := ["x-gadget-android-arm64.so".toList], copyOk := fun _ _ => false }

/-- **C2 counterexample**: the payload copy fails (`copy_file` returns
false), yet the companion still sends the non-empty filename of the file
that was not successfully staged — refuting "a copy failure results in an
empty string being sent". -/
theorem c2_counterexample :
    CEv.copyGadget "/data/adb/modules/zygisk_gadget/x-gadget-android-arm64.so".toList
        "/data/user/0/com.x/x-gadget-android-arm64.so".toList false
      ∈ (companion_handler "arm64".toList c2In c2Fs).1 ∧
    (companion_handler "arm64".toList c2In c2Fs).1.getLast? =
      some (CEv.sendGadgetName "x-gadget-android-arm64.so".toList) ∧
    "x-gadget-android-arm64.so".toList ≠ ([] : Str) := by
  refine ⟨by decide, by decide, by decide⟩

/-- **C2 (amended)**: when the locator finds no payload the companion sends
no filename at all (it aborts the event, so the hook's next read fails);
when a payload is found the companion always ends the exchange by sending
that (non-empty) filename, whether or not the copy succeeded. -/
theorem c2_amended (arch : Str) (inp : CompanionIn) (fs : CompanionFs)
    (rec : ConfigRecord) (hsrc : inp.src = ConfigSource.ok rec)
    (hen : inp.enable = true) :
    (find_matching_file fs.listing (gadgetPattern arch) = [] →
      ∀ s, CEv.sendGadgetName s ∉ (companion_handler arch inp fs).1) ∧
    (find_matching_file fs.listing (gadgetPattern arch) ≠ [] →
      (companion_handler arch inp fs).1.getLast? =
        some (CEv.sendGadgetName (find_matching_file fs.listing (gadgetPattern arch)))) := by
  constructor
  · intro hg s
    by_cases hd : normalize_dir inp.appDataDir = [] <;>
      simp [companion_handler, hsrc, hen, hg, hd]
  · intro hg
    have hshape :
        (companion_handler arch inp fs).1 =
          (CEv.sendTargetName rec.name ::
            (if normalize_dir inp.appDataDir = [] then [CEv.logNoAppDir] else []) ++
            CEv.sendDelay rec.delay ::
            ((if rec.configMode then
                stageConfig fs (upToLastOcc '/' inp.cfgPath)
                  (companionAppDir rec.name inp.appDataDir)
                  (find_matching_file fs.listing (gadgetPattern arch))
              else []) ++
              stageGadget fs (upToLastOcc '/' inp.cfgPath)
                (companionAppDir rec.name inp.appDataDir)
                (find_matching_file fs.listing (gadgetPattern arch)))) ++
          [CEv.sendGadgetName (find_matching_file fs.listing (gadgetPattern arch))] := by
      simp [companion_handler, hsrc, hen, hg]
    rw [hshape, List.getLast?_concat]

/-- Witness for the amended C2 at the concrete failing-copy event. -/
theorem c2_amended_witness :
    (companion_handler "arm64".toList c2In c2Fs).1.getLast? =
      some (CEv.sendGadgetName "x-gadget-android-arm64.so".toList) :=
  (c2_amended "arm64".toList c2In c2Fs
      { name := "com.x".toList, delay := 300000, configMode := false }
      rfl rfl).2 (by decide)

/-- **C4**: whenever the companion transmits a payload filename, that send
is the last action of the exchange, immediately preceded by the completed
payload copy attempt and — exactly when that copy succeeded — by the
ownership fix on the staged file.  The filename is never sent before the
copy and the (applicable) ownership fix have completed. -/
theorem c4_ordering (arch : Str) (inp : CompanionIn) (fs : CompanionFs) (g : Str)
    (h : CEv.sendGadgetName g ∈ (companion_handler arch inp fs).1) :
    ∃ pre s d ok dir,
      (companion_handler arch inp fs).1 =
        pre ++ CEv.copyGadget s d ok ::
          ((if ok then [CEv.chownGadget d dir] else []) ++ [CEv.sendGadgetName g]) := by
  rcases hsrc : inp.src with _ | _ | _ | rec
  · simp [companion_handler, hsrc] at h
  · simp [companion_handler, hsrc] at h
  · simp [companion_handler, hsrc] at h
  · cases hen : inp.enable with
    | false => simp [companion_handler, hsrc, hen] at h
    | true =>
      by_cases hg : find_matching_file fs.listing (gadgetPattern arch) = []
      · by_cases hd : normalize_dir inp.appDataDir = [] <;>
          simp [companion_handler, hsrc, hen, hg, hd] at h
      · have hgname : g = find_matching_file fs.listing (gadgetPattern arch) := by
          by_cases hd : normalize_dir inp.appDataDir = [] <;>
            by_cases hm : rec.configMode <;>
              simp [companion_handler, hsrc, hen, hg, hd, hm,
                sendGadgetName_not_mem_stageConfig,
                sendGadgetName_not_mem_stageGadget] at h <;>
              exact h
        refine ⟨CEv.sendTargetName rec.name ::
            (if normalize_dir inp.appDataDir = [] then [CEv.logNoAppDir] else []) ++
            CEv.sendDelay rec.delay ::
            (if rec.configMode then
              stageConfig fs (upToLastOcc '/' inp.cfgPath)
                (companionAppDir rec.name inp.appDataDir)
                (find_matching_file fs.listing (gadgetPattern arch))
            else []),
          upToLastOcc '/' inp.cfgPath ++ '/' ::
            find_matching_file fs.listing (gadgetPattern arch),
          companionAppDir rec.name inp.appDataDir ++ '/' ::
            find_matching_file fs.listing (gadgetPattern arch),
          fs.copyOk
            (upToLastOcc '/' inp.cfgPath ++ '/' ::
              find_matching_file fs.listing (gadgetPattern arch))
            (companionAppDir rec.name inp.appDataDir ++ '/' ::
              find_matching_file fs.listing (gadgetPattern arch)),
          companionAppDir rec.name inp.appDataDir, ?_⟩
        simp [companion_handler, hsrc, hen, hg, hgname, stageGadget, List.append_assoc]

/-- Event used to witness the C4 ordering at concrete inputs. -/
def c4In : CompanionIn :=
  { cfgPath := "/m/config".toList,
    src := ConfigSource.ok
      { name := "com.a".toList, delay := 5, configMode := false },
    enable := true, appDataDir := "/d/a".toList }

def c4Fs : CompanionFs :=
  { listing := ["z-gadget-arm64.so".toList], copyOk := fun _ _ => true }

/-- Witness for C4 on a concrete successful staging event. -/
theorem c4_ordering_witness :
    ∃ pre s d ok dir,
      (companion_handler "arm64".toList c4In c4Fs).1 =
        pre ++ CEv.copyGadget s d ok ::
          ((if ok then [CEv.chownGadget d dir] else []) ++
            [CEv.sendGadgetName "z-gadget-arm64.so".toList]) :=
  c4_ordering "arm64".toList c4In c4Fs "z-gadget-arm64.so".toList (by decide)

/-- Event with config mode on but no side-car file in the module root. -/
def c6In : CompanionIn :=
  { cfgPath := "/data/adb/modules/zygisk_gadget/config".toList,
    src := ConfigSource.ok
      { name := "com.x".toList, delay := 1000, configMode := true },
    enable := true, appDataDir := "/data/user/0/com.x".toList }

def c6Fs : CompanionFs :=
  { listing := ["x-gadget-android-arm64.so".toList], copyOk := fun _ _ => false }

/-- **C6 counterexample**: config mode is on and no side-car file exists,
and while the warning is indeed logged, the companion still attempts a
config-file copy — with the module directory path plus a bare `/` (the
empty match appended) as its source — refuting "attempts no config-file
copy". -/
theorem c6_counterexample :
    CEv.logNoConfig ∈ (companion_handler "arm64".toList c6In c6Fs).1 ∧
    CEv.copyConfig "/data/adb/modules/zygisk_gadget/".toList
        "/data/user/0/com.x/x-gadget-android-arm64.config.so".toList false
      ∈ (companion_handler "arm64".toList c6In c6Fs).1 := by
  refine ⟨by decide, by decide⟩

/-- **C6 (amended)**: with config mode enabled and no side-car present, the
companion logs the warning but does not skip the config-file staging: it
still calls `copy_file` with source path equal to the module root plus a
trailing `/` (which cannot denote a regular file, so no valid side-car is
staged), and payload staging proceeds unaffected, with the payload filename
still sent. -/
theorem c6_amended (arch : Str) (inp : CompanionIn) (fs : CompanionFs)
    (rec : ConfigRecord) (hsrc : inp.src = ConfigSource.ok rec)
    (hen : inp.enable = true) (hcm : rec.configMode = true)
    (hg : find_matching_file fs.listing (gadgetPattern arch) ≠ [])
    (hc : find_matching_file fs.listing configFilePattern = []) :
    CEv.logNoConfig ∈ (companion_handler arch inp fs).1 ∧
    (∃ d ok, CEv.copyConfig (upToLastOcc '/' inp.cfgPath ++ ['/']) d ok
        ∈ (companion_handler arch inp fs).1) ∧
    (∃ s d ok, CEv.copyGadget s d ok ∈ (companion_handler arch inp fs).1) ∧
    CEv.sendGadgetName (find_matching_file fs.listing (gadgetPattern arch))
      ∈ (companion_handler arch inp fs).1 := by
  refine ⟨?_,
      ⟨companionAppDir rec.name inp.appDataDir ++ '/' ::
          new_frida_config_name (find_matching_file fs.listing (gadgetPattern arch)),
        fs.copyOk (upToLastOcc '/' inp.cfgPath ++ ['/'])
          (companionAppDir rec.name inp.appDataDir ++ '/' ::
            new_frida_config_name (find_matching_file fs.listing (gadgetPattern arch))),
        ?_⟩,
      ⟨upToLastOcc '/' inp.cfgPath ++ '/' ::
          find_matching_file fs.listing (gadgetPattern arch),
        companionAppDir rec.name inp.appDataDir ++ '/' ::
          find_matching_file fs.listing (gadgetPattern arch),
        fs.copyOk
          (upToLastOcc '/' inp.cfgPath ++ '/' ::
            find_matching_file fs.listing (gadgetPattern arch))
          (companionAppDir rec.name inp.appDataDir ++ '/' ::
            find_matching_file fs.listing (gadgetPattern arch)),
        ?_⟩, ?_⟩ <;>
    by_cases hd : normalize_dir inp.appDataDir = [] <;>
      simp [companion_handler, hsrc, hen, hg, hd, hcm, stageConfig, stageGadget, hc]

/-- Witness for the amended C6 at the concrete no-side-car event. -/
theorem c6_amended_witness :
    CEv.logNoConfig ∈ (companion_handler "arm64".toList c6In c6Fs).1 :=
  (c6_amended "arm64".toList c6In c6Fs
      { name := "com.x".toList, delay := 1000, configMode := true }
      rfl rfl rfl (by decide) (by decide)).1

/-! ## In-process hook (`MyModule::preAppSpecialize`, main.cpp:164-222) -/

/-- Channel writes and API actions of the hook during pre-specialization. -/
inductive HEv where
  | sendConfigPath (s : Str)
  | sendDecision (b : Bool)
  | sendAppDir (s : Str)
  | setDlcloseOpt
  | closeFd
  deriving DecidableEq

/-- The values `preAppSpecialize` observes: whether `args->nice_name` is
present, the process name, the config path derived from the module dir, the
target name read at S2, the (possibly absent) `app_data_dir`, and the
gadget name read at the end of the exchange. -/
structure HookIn where
  hasNiceName : Bool
  packageName : Str
  configPath : Str
  targetName : Str
  appDataDir : Option Str
  gadgetName : Str

/-- Mirrors `MyModule::preAppSpecialize` (main.cpp:164-222): the action list
in program order, and the final value of `_enable_gadget_injection`.  On a
name match the hook writes the decision boolean, the data dir (empty
sentinel when absent), and disables itself again when the companion sent no
gadget name; on a mismatch it writes nothing, requests `DLCLOSE` of the
module library and closes the channel. -/
def preAppSpecialize (inp : HookIn) : List HEv × Bool :=
  if inp.hasNiceName = false then ([], false)
  else if inp.packageName = inp.targetName then
    (HEv.sendConfigPath inp.configPath :: HEv.sendDecision true ::
        ((match inp.appDataDir with
          | some d => [HEv.sendAppDir d]
          | none => [HEv.sendAppDir []]) ++ [HEv.closeFd]),
      if inp.gadgetName = [] then false else true)
  else
    ([HEv.sendConfigPath inp.configPath, HEv.setDlcloseOpt, HEv.closeFd], false)

/-- A specialization event whose process name differs from the target. -/
def c1In : HookIn :=
  { hasNiceName := true, packageName := "com.other".toList,
    configPath := "/m/config".toList, targetName := "com.target".toList,
    appDataDir := none, gadgetName := [] }

/-- **C1 counterexample**: when the hook's identity differs from the target
name, no decision boolean of either value is ever written on the channel —
refuting the claim that the hook sends `decision = false` in that case. -/
theorem c1_counterexample :
    HEv.sendDecision true ∉ (preAppSpecialize c1In).1 ∧
    HEv.sendDecision false ∉ (preAppSpecialize c1In).1 := by
  refine ⟨by decide, by decide⟩

/-- **C1 (amended)**: the hook sends the decision boolean only on a match
(value `true`, before the exchange ends); on a mismatch it sends no decision
at all — it requests unload of the module library and closes the channel,
leaving the companion to observe the closed channel instead. -/
theorem c1_amended (inp : HookIn) (h : inp.hasNiceName = true) :
    (inp.packageName = inp.targetName →
      HEv.sendDecision true ∈ (preAppSpecialize inp).1) ∧
    (inp.packageName ≠ inp.targetName →
      (∀ b, HEv.sendDecision b ∉ (preAppSpecialize inp).1) ∧
      HEv.setDlcloseOpt ∈ (preAppSpecialize inp).1) := by
  constructor
  · intro heq
    rcases hd : inp.appDataDir with _ | d <;>
      simp [preAppSpecialize, h, heq, hd]
  · intro hne
    refine ⟨fun b => ?_, by simp [preAppSpecialize, h, hne]⟩
    rcases hd : inp.appDataDir with _ | d <;>
      simp [preAppSpecialize, h, hne, hd]

/-- Witness for the amended C1 at a concrete mismatching event. -/
theorem c1_amended_witness :
    HEv.setDlcloseOpt ∈ (preAppSpecialize c1In).1 :=
  ((c1_amended c1In rfl).2 (by decide)).2

/-! ## Deferred loader (`injection_thread`, main.cpp:104-155) -/

/-- Activation attempts and file deletions performed by the loader. -/
inductive LEv where
  | attemptDlopen (ok : Bool)
  | attemptXdl (ok : Bool)
  | unlink (path : Str)
  deriving DecidableEq

/-- What the loader finds when it runs: the raw data-dir string, the staged
gadget name, whether the gadget file still exists (`ifstream` opens), the
results `dlopen` / `xdl_open` would produce, and the target directory's
entries scanned for the side-car at cleanup time. -/
structure LoaderEnv where
  appDataDir : Str
  gadgetName : Str
  gadgetPresent : Bool
  dlopenOk : Bool
  xdlOk : Bool
  targetListing : List Str

/-- Mirrors `injection_thread` (main.cpp:104-155): bail out on an empty
directory or an absent gadget file; try `dlopen`, falling back to
`xdl_open` only when it failed; and only when one of them yielded a handle,
unlink the gadget and — when the cleanup pattern finds one — the side-car
config file. -/
def injection_thread (env : LoaderEnv) : List LEv :=
  if normalize_dir env.appDataDir = [] then []
  else if env.gadgetPresent = false then []
  else
    (LEv.attemptDlopen env.dlopenOk ::
        (if env.dlopenOk then [] else [LEv.attemptXdl env.xdlOk])) ++
      (if env.dlopenOk || env.xdlOk then
        LEv.unlink (normalize_dir env.appDataDir ++ '/' :: env.gadgetName) ::
          (if find_matching_file env.targetListing cleanupPattern = [] then []
            else
              [LEv.unlink (normalize_dir env.appDataDir ++ '/' ::
                find_matching_file env.targetListing cleanupPattern)])
      else [])

/-- **C7**: the staged payload (and the side-car found by the cleanup
pattern, when one exists) is unlinked if and only if one of the two
activation strategies succeeded; on total activation failure — and on any
run that never reaches activation — no file is deleted. -/
theorem c7_cleanup (env : LoaderEnv) :
    ((LEv.attemptDlopen true ∈ injection_thread env ∨
        LEv.attemptXdl true ∈ injection_thread env) →
      LEv.unlink (normalize_dir env.appDataDir ++ '/' :: env.gadgetName)
          ∈ injection_thread env ∧
      (find_matching_file env.targetListing cleanupPattern ≠ [] →
        LEv.unlink (normalize_dir env.appDataDir ++ '/' ::
            find_matching_file env.targetListing cleanupPattern)
          ∈ injection_thread env)) ∧
    ((¬ (LEv.attemptDlopen true ∈ injection_thread env ∨
        LEv.attemptXdl true ∈ injection_thread env)) →
      ∀ p, LEv.unlink p ∉ injection_thread env) := by
  by_cases hd : normalize_dir env.appDataDir = []
  · simp [injection_thread, hd]
  · cases hp : env.gadgetPresent
    · simp [injection_thread, hd, hp]
    · cases hdl : env.dlopenOk
      · cases hx : env.xdlOk
        · simp [injection_thread, hd, hp, hdl, hx]
        · by_cases hc : find_matching_file env.targetListing cleanupPattern = [] <;>
            simp [injection_thread, hd, hp, hdl, hx, hc]
      · by_cases hc : find_matching_file env.targetListing cleanupPattern = [] <;>
          simp [injection_thread, hd, hp, hdl, hc]

/-- A loader run where `dlopen` fails and the `xdl_open` fallback succeeds,
with a side-car config file present in the target directory. -/
def c7Env : LoaderEnv :=
  { appDataDir := "/data/user/0/com.x/".toList,
    gadgetName := "x-gadget-android-arm64.so".toList,
    gadgetPresent := true, dlopenOk := false, xdlOk := true,
    targetListing := ["x-gadget-android-arm64.config.so".toList] }

/-- Witness for C7: on the fallback-success run both files are unlinked. -/
theorem c7_cleanup_witness :
    LEv.unlink "/data/user/0/com.x/x-gadget-android-arm64.so".toList
        ∈ injection_thread c7Env ∧
    LEv.unlink "/data/user/0/com.x/x-gadget-android-arm64.config.so".toList
        ∈ injection_thread c7Env :=
  ⟨((c7_cleanup c7Env).1 (Or.inr (by decide))).1,
   ((c7_cleanup c7Env).1 (Or.inr (by decide))).2 (by decide)⟩

/-! ## File stager (`copy_file`, main.cpp:255-289) -/

/-- Log lines `copy_file` can emit. -/
inductive CpEv where
  | logSrcOpenErr
  | logDstOpenErr
  | logWriteErr
  | logReadErr
  deriving DecidableEq

/-- One `copy_file` run as the C function observes it: whether the two
`fopen` calls succeed, the successive `fread` chunks paired with whether the
matching `fwrite` wrote them fully, whether `ferror(source_file)` is set
once `fread` returns 0, and how many source bytes were left unread when the
stream stopped early. -/
structure CopyEnv where
  srcOpenOk : Bool
  dstOpenOk : Bool
  chunks : List (Nat × Bool)
  readError : Bool
  unreadBytes : Nat

/-- The read/write loop (main.cpp:273-280): fails at the first short
`fwrite`, succeeds when `fread` returns 0 — whether at end of file or after
a read error. -/
def copyLoop : List (Nat × Bool) → Bool
  | [] => true
  | (_, wOk) :: rest => if wOk then copyLoop rest else false

/-- Mirrors `copy_file` (main.cpp:255-289): open failures and write failures
return `false`; a source read error is only logged (`ferror` check at
main.cpp:282-284) and the function still returns `true`. -/
def copy_file (env : CopyEnv) : Bool × List CpEv :=
  if env.srcOpenOk = false then (false, [CpEv.logSrcOpenErr])
  else if env.dstOpenOk = false then (false, [CpEv.logDstOpenErr])
  else if copyLoop env.chunks then
    (true, if env.readError then [CpEv.logReadErr] else [])
  else (false, [CpEv.logWriteErr])

theorem copyLoop_of_all_writes {chunks : List (Nat × Bool)}
    (h : ∀ c ∈ chunks, c.2 = true) : copyLoop chunks = true := by
  induction chunks with
  | nil => rfl
  | cons c rest ih =>
      obtain ⟨n, w⟩ := c
      have hw : w = true := h (n, w) (by simp)
      simp [copyLoop, hw]
      exact ih (fun d hd => h d (by simp [hd]))

/-- **C10**: `copy_file` reports success whenever both opens and every write
succeed, even when a read error on the source ended the stream early with
bytes still unread — the error is logged but the copy still returns `true`,
so a reported success may be truncated relative to the source. -/
theorem c10_copy_success (env : CopyEnv) (h1 : env.srcOpenOk = true)
    (h2 : env.dstOpenOk = true) (h3 : ∀ c ∈ env.chunks, c.2 = true) :
    (copy_file env).1 = true ∧
    (env.readError = true → CpEv.logReadErr ∈ (copy_file env).2) := by
  have hl := copyLoop_of_all_writes h3
  constructor
  · simp [copy_file, h1, h2, hl]
  · intro hr
    simp [copy_file, h1, h2, hl, hr]

/-- A run whose source stream died early (5 bytes left unread, read error
set) after one fully written chunk. -/
def c10Env : CopyEnv :=
  { srcOpenOk := true, dstOpenOk := true, chunks := [(65536, true)],
    readError := true, unreadBytes := 5 }

/-- Witness for C10: the truncated run still reports success. -/
theorem c10_copy_success_witness :
    (copy_file c10Env).1 = true ∧ CpEv.logReadErr ∈ (copy_file c10Env).2 :=
  ⟨(c10_copy_success c10Env rfl rfl (by decide)).1,
   (c10_copy_success c10Env rfl rfl (by decide)).2 rfl⟩
